import Mathlib

/-!
Verification of the keystone authentication middleware (Go).

The middleware intercepts inbound HTTP requests, strips untrusted
identity-assertion headers, validates the `X-Auth-Token` header against a
remote Keystone v3 endpoint (possibly through a cache), and projects the
resulting identity record onto request headers before delegating to the
downstream handler.

Shallow embedding notes:
* Go nullable pointers (`*project`, `*domain`, `*[]role`) become `Option`.
* Dereferencing a nil pointer in Go panics; functions whose Go original can
  panic return `Option` here, with `none` standing for the panic.
* Times are modelled as `Int` instants (the code compares Unix seconds in
  `Valid` and durations in the TTL computation; both are order-theoretic, so
  a single integer timeline is faithful).
* `http.Header` is modelled as an association list with `Set`/`Del`/`Get`
  operations mirroring the Go map semantics (`Set` replaces, `Del` removes
  all entries of the key, `Get` returns `""` when absent).
* The network is a parameter: an oracle `net : String → HttpResult` giving
  the authority's answer for a token, so `validate` stays a pure function of
  the exchange.
-/

namespace Keystone

/-- Go struct `domain` (middleware.go): `ID`, `Name`, `Enabled`. -/
structure Domain where
  id : String
  name : String
  enabled : Bool
deriving DecidableEq, Repr

/-- Go struct `project` (middleware.go): `ID`, `DomainID`, `Name`, `Enabled`,
and the nullable embedded `Domain *domain` pointer. -/
structure Project where
  id : String
  domainID : String
  name : String
  enabled : Bool
  domain : Option Domain
deriving DecidableEq, Repr

/-- The anonymous `Domain` struct nested inside `token.User`: `ID`, `Name`. -/
structure UserDomain where
  id : String
  name : String
deriving DecidableEq, Repr

/-- The anonymous `User` struct inside Go struct `token`. -/
structure TokenUser where
  id : String
  name : String
  email : String
  enabled : Bool
  domainID : String
  domain : UserDomain
deriving DecidableEq, Repr

/-- One element of the `Roles` slice of Go struct `token`: `ID`, `Name`. -/
structure Role where
  id : String
  name : String
deriving DecidableEq, Repr

/-- Go struct `token` (middleware.go). `Project`, `Domain` are nullable
pointers and `Roles` is a nullable pointer to a slice, hence `Option`. -/
structure Token where
  expiresAt : Int
  issuedAt : Int
  user : TokenUser
  project : Option Project
  domain : Option Domain
  roles : Option (List Role)
deriving DecidableEq, Repr

/-- Go `func (t token) Valid() bool`:
`t.IssuedAt.Unix() <= now && now < t.ExpiresAt.Unix()`.
`now` is passed explicitly (the Go code reads `time.Now()`). -/
def Token.Valid (t : Token) (now : Int) : Bool :=
  decide (t.issuedAt ≤ now) && decide (now < t.expiresAt)

/-- The project-scope block of `func (t token) Headers()`. Go dereferences
`project.Domain.Name` without a nil check; `none` models that panic. -/
def projectHeaders (t : Token) : Option (List (String × String)) :=
  match t.project with
  | none => some []
  | some p =>
    match p.domain with
    | none => none
    | some d =>
      some [("X-Project-Name", p.name), ("X-Project-Id", p.id),
            ("X-Project-Domain-Name", d.name), ("X-Project-Domain-Id", p.domainID)]

/-- The domain-scope block of `func (t token) Headers()`. -/
def domainHeaders (t : Token) : List (String × String) :=
  match t.domain with
  | none => []
  | some d => [("X-Domain-Id", d.id), ("X-Domain-Name", d.name)]

/-- The roles block of `func (t token) Headers()`: emitted iff the `Roles`
pointer is non-nil, joining the role names with `","` (`strings.Join`). -/
def rolesHeaders (t : Token) : List (String × String) :=
  match t.roles with
  | none => []
  | some rs => [("X-Roles", String.intercalate "," (rs.map Role.name))]

/-- Go `func (t token) Headers() map[string]string`, flattened into an
association list in assignment order (all keys are distinct, so map and
list agree). `none` models the nil-pointer panic at `project.Domain.Name`. -/
def Token.Headers (t : Token) : Option (List (String × String)) :=
  (projectHeaders t).map fun ph =>
    [("X-User-Id", t.user.id), ("X-User-Name", t.user.name),
     ("X-User-Domain-Id", t.user.domainID),
     ("X-User-Domain-Name", t.user.domain.name)]
    ++ ph ++ domainHeaders t ++ rolesHeaders t

/-- The `Error` sub-struct of Go struct `authResponse`. -/
structure AuthError where
  code : Nat
  message : String
  title : String
deriving DecidableEq, Repr

/-- Go struct `authResponse`: nullable `Error` and `Token` pointers. -/
structure AuthResponse where
  error : Option AuthError
  token : Option Token
deriving DecidableEq, Repr

/-- Outcome of decoding the response body as the `authResponse` envelope. -/
inductive DecodeOutcome where
  | malformed : DecodeOutcome
  | envelope : AuthResponse → DecodeOutcome
deriving DecidableEq, Repr

/-- Outcome of the outbound HTTP exchange in `validate`: either the
transport fails (`h.client.Do` returns an error) or a response arrives
with a status code and a body. -/
inductive HttpResult where
  | transportFailure : HttpResult
  | response : Nat → DecodeOutcome → HttpResult
deriving DecidableEq, Repr

/-- The distinct failure exits of Go `func (h *handler) validate`. -/
inductive ValidateError where
  | transportFailure : ValidateError
  | statusGE400 : Nat → ValidateError
  | decodeFailure : ValidateError
  | authorityError : Nat → String → ValidateError
  | statusNotOK : Nat → ValidateError
  | missingToken : ValidateError
  | notValid : ValidateError
deriving DecidableEq, Repr

/-- Go `func (h *handler) validate(token string) (*token, error)`, as a
function of the HTTP exchange outcome. Mirrors the source's check order:
transport error, `StatusCode >= 400`, JSON decode, explicit error object,
`StatusCode != http.StatusOK`, missing token object, `!resp.Token.Valid()`. -/
def validate (r : HttpResult) (now : Int) : Except ValidateError Token :=
  match r with
  | .transportFailure => .error .transportFailure
  | .response status body =>
    if status ≥ 400 then .error (.statusGE400 status)
    else
      match body with
      | .malformed => .error .decodeFailure
      | .envelope resp =>
        match resp.error with
        | some e => .error (.authorityError e.code e.message)
        | none =>
          if status ≠ 200 then .error (.statusNotOK status)
          else
            match resp.token with
            | none => .error .missingToken
            | some t => if t.Valid now then .ok t else .error .notValid

/-- `true` iff the validation produced an error. -/
def isFailure : Except ValidateError Token → Bool
  | .error _ => true
  | .ok _ => false

/-- `http.Header`, as an association list of name/value pairs. -/
abbrev HeaderMap : Type := List (String × String)

/-- `req.Header.Del(k)`: remove every entry named `k`. -/
def hDel (hs : HeaderMap) (k : String) : HeaderMap :=
  List.filter (fun p => !(p.1 == k)) hs

/-- `req.Header.Set(k, v)`: replace any entry named `k` with the single
value `v`. -/
def hSet (hs : HeaderMap) (k v : String) : HeaderMap :=
  (k, v) :: hDel hs k

/-- `req.Header.Get(k)`: first value of `k`, or `""` when absent. -/
def hGet (hs : HeaderMap) (k : String) : String :=
  match List.lookup k hs with
  | some v => v
  | none => ""

/-- The header names deleted by Go `func filterIncomingHeaders`, in source
order. Note the source's literal misspelling `"X-Servie-Catalog"`. -/
def filteredHeaderNames : List String :=
  ["X-Identity-Status", "X-Service-Identity-Status",
   "X-Domain-Id", "X-Service-Domain-Id",
   "X-Domain-Name", "X-Service-Domain-Name",
   "X-Project-Id", "X-Service-Project-Id",
   "X-Project-Name", "X-Service-Project-Name",
   "X-Project-Domain-Id", "X-Service-Project-Domain-Id",
   "X-Project-Domain-Name", "X-Service-Project-Domain-Name",
   "X-User-Id", "X-Service-User-Id",
   "X-User-Name", "X-Service-User-Name",
   "X-User-Domain-Id", "X-Service-User-Domain-Id",
   "X-User-Domain-Name", "X-Service-User-Domain-Name",
   "X-Roles", "X-Service-Roles",
   "X-Servie-Catalog",
   "X-Tenant-Id", "X-Tenant", "X-User", "X-Role"]

/-- Go `func filterIncomingHeaders(req *http.Request)`: delete each listed
header from the request. -/
def filterIncomingHeaders (hs : HeaderMap) : HeaderMap :=
  filteredHeaderNames.foldl hDel hs

/-- The configuration of the `Auth` middleware relevant to `ServeHTTP`:
whether `TokenCache` is non-nil and the `CacheTime` duration. -/
structure GateConfig where
  cacheConfigured : Bool
  cacheTime : Int
deriving DecidableEq, Repr

/-- Observable outcome of one `ServeHTTP` run: the final request headers
seen by the downstream handler, whether delegation happened, whether
`h.validate` was invoked (a call to the identity authority), and the
`TokenCache.Set` call performed, if any (key, record, ttl). -/
structure ServeOutcome where
  headers : HeaderMap
  delegated : Bool
  validatorCalled : Bool
  cacheWrite : Option (String × Token × Int)
deriving DecidableEq, Repr

/-- The TTL computation of `ServeHTTP` (middleware.go lines 93-97):
`ttl := h.CacheTime; if expiresIn := ExpiresAt.Sub(now); expiresIn < h.CacheTime { ttl = expiresIn }`. -/
def computeTTL (cacheTime expiresAt now : Int) : Int :=
  if expiresAt - now < cacheTime then expiresAt - now else cacheTime

/-- Lines 67-68 of `ServeHTTP`: sanitize, then default the status header
to `Invalid`. -/
def sanitizedBase (reqHeaders : HeaderMap) : HeaderMap :=
  hSet (filterIncomingHeaders reqHeaders) "X-Identity-Status" "Invalid"

/-- Lines 102-105 of `ServeHTTP`: set status `Confirmed` and `Set` each
projected header onto the request. -/
def projectOnto (hs : HeaderMap) (th : List (String × String)) : HeaderMap :=
  th.foldl (fun acc kv => hSet acc kv.1 kv.2) (hSet hs "X-Identity-Status" "Confirmed")

/-- Go `func (h *handler) ServeHTTP`, as a pure function of the request
headers, the cache's answer (`cacheGet tok` is what `TokenCache.Get(tok)`
yields when a cache is configured) and the network oracle `net` feeding
`validate`. The deferred `h.handler.ServeHTTP` always runs, so every
non-panicking branch has `delegated = true`; `none` models the nil-pointer
panic inside `Headers()`. -/
def serveHTTP (cfg : GateConfig) (reqHeaders : HeaderMap)
    (cacheGet : String → Option Token) (net : String → HttpResult)
    (now : Int) : Option ServeOutcome :=
  let hs := sanitizedBase reqHeaders
  let authToken := hGet hs "X-Auth-Token"
  if authToken = "" then
    some ⟨hs, true, false, none⟩
  else
    match (if cfg.cacheConfigured then cacheGet authToken else none) with
    | some tok =>
      (tok.Headers).map fun th => ⟨projectOnto hs th, true, false, none⟩
    | none =>
      match validate (net authToken) now with
      | .error _ => some ⟨hs, true, true, none⟩
      | .ok tok =>
        let write : Option (String × Token × Int) :=
          if cfg.cacheConfigured then
            some (authToken, tok, computeTTL cfg.cacheTime tok.expiresAt now)
          else none
        (tok.Headers).map fun th => ⟨projectOnto hs th, true, true, write⟩

/-- The failure cases enumerated by the spec for the Validator (§4.3 steps
2-7), written from the spec's words for comparison with `validate`:
transport failure, status ≥ 400, undecodable body, explicit error object,
missing token object, validity window not containing now. -/
def specEnumeratedFailure (r : HttpResult) (now : Int) : Bool :=
  match r with
  | .transportFailure => true
  | .response status body =>
    decide (status ≥ 400) ||
    match body with
    | .malformed => true
    | .envelope resp =>
      resp.error.isSome ||
      match resp.token with
      | none => true
      | some t => !(t.Valid now)

/-- A concrete user sub-record for witnesses. -/
def wUser : TokenUser :=
  ⟨"u-42", "arc", "", true, "o-test", ⟨"o-test", "testdomain"⟩⟩

/-- A concrete unscoped token, valid on the window [0, 100). -/
def wTokenUnscoped : Token := ⟨100, 0, wUser, none, none, none⟩

/-- A concrete domain-scoped token with two roles, valid on [0, 100). -/
def wTokenDomain : Token :=
  ⟨100, 0, wUser, none, some ⟨"o-test", "testdomain", true⟩,
   some [⟨"r-m", "member"⟩, ⟨"r-b", "blafasel"⟩]⟩

/-- A project-scoped token whose project's `domain_id` field (`"A"`)
differs from its embedded domain sub-object's id (`"B"`). -/
def wTokenMismatch : Token :=
  ⟨100, 0, wUser, some ⟨"p-1", "A", "Arc", true, some ⟨"B", "testdomain", true⟩⟩,
   none, none⟩

/-- A project-scoped token whose embedded domain pointer is nil. -/
def wTokenNilProjectDomain : Token :=
  ⟨100, 0, wUser, some ⟨"p-1", "A", "Arc", true, none⟩, none, none⟩

/-- A network oracle answering every token with a 200 envelope carrying
`wTokenUnscoped`. -/
def wNet : String → HttpResult :=
  fun _ => .response 200 (.envelope ⟨none, some wTokenUnscoped⟩)

/-- The outcome of a first validated request against `wNet` with a cache
configured (cache time 300, now = 50). -/
def wOutcome : ServeOutcome :=
  (serveHTTP ⟨true, 300⟩ [("X-Auth-Token", "1234")] (fun _ => none) wNet 50).getD
    ⟨[], false, false, none⟩

/-- The header names that `Token.Headers` can ever emit. -/
def projectionHeaderNames : List String :=
  ["X-User-Id", "X-User-Name", "X-User-Domain-Id", "X-User-Domain-Name",
   "X-Project-Name", "X-Project-Id", "X-Project-Domain-Name", "X-Project-Domain-Id",
   "X-Domain-Id", "X-Domain-Name", "X-Roles"]

theorem lookup_hDel_self (hs : HeaderMap) (k : String) :
    List.lookup k (hDel hs k) = none := by
  induction hs with
  | nil => rfl
  | cons p rest ih =>
    simp only [hDel, List.filter_cons] at ih ⊢
    by_cases hp : p.1 = k
    · have h1 : (p.1 == k) = true := by simpa using hp
      simp only [h1, Bool.not_true]
      simpa using ih
    · have h1 : (p.1 == k) = false := by simpa using hp
      have h2 : (k == p.1) = false := by simpa using Ne.symm hp
      simp only [h1, Bool.not_false, List.lookup, h2, if_true]
      simpa [h2] using ih

theorem lookup_hDel_ne (hs : HeaderMap) (k k' : String) (h : k' ≠ k) :
    List.lookup k' (hDel hs k) = List.lookup k' hs := by
  induction hs with
  | nil => rfl
  | cons p rest ih =>
    simp only [hDel, List.filter_cons] at ih ⊢
    by_cases hp : p.1 = k
    · have h1 : (p.1 == k) = true := by simpa using hp
      have h2 : (k' == p.1) = false := by
        simp only [beq_eq_false_iff_ne]
        exact fun hc => h (hc.trans hp)
      simp only [h1, Bool.not_true, List.lookup, h2]
      simpa [h2] using ih
    · have h1 : (p.1 == k) = false := by simpa using hp
      simp only [h1, Bool.not_false, List.lookup, if_true]
      by_cases hk : k' = p.1
      · have h2 : (k' == p.1) = true := by simpa using hk
        simp [List.lookup, h2]
      · have h2 : (k' == p.1) = false := by simpa using hk
        simp only [List.lookup, h2]
        simpa using ih

theorem lookup_hDel_none (hs : HeaderMap) (k k' : String)
    (h : List.lookup k' hs = none) : List.lookup k' (hDel hs k) = none := by
  by_cases hk : k' = k
  · subst hk; exact lookup_hDel_self hs k'
  · rw [lookup_hDel_ne hs k k' hk]; exact h

theorem lookup_foldl_hDel_none (names : List String) (hs : HeaderMap) (k : String)
    (h : List.lookup k hs = none) :
    List.lookup k (names.foldl hDel hs) = none := by
  induction names generalizing hs with
  | nil => exact h
  | cons a rest ih => exact ih (hDel hs a) (lookup_hDel_none hs a k h)

theorem hGet_foldl_hDel_of_mem (names : List String) (hs : HeaderMap) (k : String)
    (h : k ∈ names) : hGet (names.foldl hDel hs) k = "" := by
  induction names generalizing hs with
  | nil => cases h
  | cons a rest ih =>
    rcases List.mem_cons.mp h with rfl | hmem
    · rw [List.foldl_cons]
      unfold hGet
      rw [lookup_foldl_hDel_none rest (hDel hs k) k (lookup_hDel_self hs k)]
    · exact ih (hDel hs a) hmem

theorem hGet_hSet_self (hs : HeaderMap) (k v : String) :
    hGet (hSet hs k v) k = v := by
  simp [hGet, hSet, List.lookup]

theorem hGet_hSet_ne (hs : HeaderMap) (k k' v : String) (h : k' ≠ k) :
    hGet (hSet hs k v) k' = hGet hs k' := by
  have h2 : (k' == k) = false := by simpa using h
  simp only [hGet, hSet, List.lookup, h2]
  rw [lookup_hDel_ne hs k k' h]

theorem hGet_foldl_hSet_notmem (th : List (String × String)) (hs : HeaderMap) (k : String)
    (h : k ∉ th.map Prod.fst) :
    hGet (th.foldl (fun acc kv => hSet acc kv.1 kv.2) hs) k = hGet hs k := by
  induction th generalizing hs with
  | nil => rfl
  | cons kv rest ih =>
    simp only [List.map_cons, List.mem_cons] at h
    push_neg at h
    rw [List.foldl_cons, ih _ h.2, hGet_hSet_ne _ _ _ _ h.1]

theorem projectHeaders_keys (t : Token) (ph : List (String × String))
    (h : projectHeaders t = some ph) : ∀ q ∈ ph, q.1 ∈ projectionHeaderNames := by
  unfold projectHeaders at h
  rcases hp : t.project with _ | p
  · simp only [hp, Option.some.injEq] at h
    subst h
    intro q hq
    cases hq
  · simp only [hp] at h
    rcases hd : p.domain with _ | d
    · simp only [hd] at h
      exact Option.noConfusion h
    · simp only [hd, Option.some.injEq] at h
      subst h
      intro q hq
      simp only [List.mem_cons, List.not_mem_nil, or_false] at hq
      rcases hq with rfl | rfl | rfl | rfl <;> simp [projectionHeaderNames]

theorem domainHeaders_keys (t : Token) :
    ∀ q ∈ domainHeaders t, q.1 ∈ projectionHeaderNames := by
  unfold domainHeaders
  rcases t.domain with _ | d
  · intro q hq; cases hq
  · intro q hq
    simp only [List.mem_cons, List.not_mem_nil, or_false] at hq
    rcases hq with rfl | rfl <;> simp [projectionHeaderNames]

theorem rolesHeaders_keys (t : Token) :
    ∀ q ∈ rolesHeaders t, q.1 ∈ projectionHeaderNames := by
  unfold rolesHeaders
  rcases t.roles with _ | rs
  · intro q hq; cases hq
  · intro q hq
    simp only [List.mem_cons, List.not_mem_nil, or_false] at hq
    subst hq
    simp [projectionHeaderNames]

theorem headers_keys_mem (t : Token) (th : List (String × String)) (h : t.Headers = some th) :
    ∀ k ∈ th.map Prod.fst, k ∈ projectionHeaderNames := by
  unfold Token.Headers at h
  rcases hph : projectHeaders t with _ | ph <;> rw [hph] at h
  · cases h
  · simp only [Option.map_some'] at h
    injection h with h
    subst h
    intro k hk
    simp only [List.map_append, List.mem_append] at hk
    rcases hk with ((hk | hk) | hk) | hk
    · simp only [List.map_cons, List.map_nil, List.mem_cons, List.not_mem_nil, or_false] at hk
      rcases hk with rfl | rfl | rfl | rfl <;> simp [projectionHeaderNames]
    · obtain ⟨q, hq, rfl⟩ := List.mem_map.mp hk
      exact projectHeaders_keys t ph hph q hq
    · obtain ⟨q, hq, rfl⟩ := List.mem_map.mp hk
      exact domainHeaders_keys t q hq
    · obtain ⟨q, hq, rfl⟩ := List.mem_map.mp hk
      exact rolesHeaders_keys t q hq

theorem status_notmem_headers (t : Token) (th : List (String × String))
    (h : t.Headers = some th) : "X-Identity-Status" ∉ th.map Prod.fst := by
  intro hk
  have hmem := headers_keys_mem t th h _ hk
  revert hmem
  decide

theorem hGet_projectOnto_status (hs : HeaderMap) (t : Token) (th : List (String × String))
    (h : t.Headers = some th) :
    hGet (projectOnto hs th) "X-Identity-Status" = "Confirmed" := by
  unfold projectOnto
  rw [hGet_foldl_hSet_notmem th _ _ (status_notmem_headers t th h), hGet_hSet_self]

/-- C6: a decoded token is valid at resolution time iff
`issuedAt ≤ now < expiresAt`; a `200` envelope whose token's validity
window does not contain now is rejected by `validate` with the
expired-or-not-yet-valid failure (the source's "Returned token is not
valid" error), and accepted otherwise. -/
theorem token_valid_window (t : Token) (now : Int) :
    (t.Valid now = true ↔ t.issuedAt ≤ now ∧ now < t.expiresAt) ∧
    validate (.response 200 (.envelope ⟨none, some t⟩)) now
      = if t.Valid now then .ok t else .error .notValid := by
  constructor
  · simp [Token.Valid]
  · simp [validate]

/-- C9: the header projection is not total. For every identity record whose
project scope is present but whose project's embedded domain sub-object is
nil, `Headers` dereferences a nil pointer (modelled: returns `none`, the
panic) instead of omitting or defaulting `X-Project-Domain-Name`. -/
theorem headers_crash_on_nil_project_domain (t : Token) (p : Project)
    (hp : t.project = some p) (hd : p.domain = none) :
    t.Headers = none := by
  simp [Token.Headers, projectHeaders, hp, hd]

/-- Witness for C9 at a concrete record. -/
theorem headers_crash_on_nil_project_domain_witness :
    wTokenNilProjectDomain.Headers = none :=
  headers_crash_on_nil_project_domain wTokenNilProjectDomain
    ⟨"p-1", "A", "Arc", true, none⟩ rfl rfl

/-- C1 (failing evaluation): the sanitizer contract misses
`X-Service-Catalog` — the source deletes the misspelled
`"X-Servie-Catalog"` — so a tokenless request pre-populated with
`X-Service-Catalog: spoofed` still carries that header downstream, even
though `X-Identity-Status` is duly `Invalid` and the request is delegated. -/
theorem sanitizer_misses_service_catalog :
    (serveHTTP ⟨false, 300⟩ [("X-Service-Catalog", "spoofed")] (fun _ => none)
        (fun _ => .transportFailure) 0).map
      (fun o => (hGet o.headers "X-Service-Catalog",
                 hGet o.headers "X-Identity-Status", o.delegated))
      = some ("spoofed", "Invalid", true) := by
  rfl

/-- C5: the projection emits `X-Roles` joined with a single comma in
authority order exactly when `roles` is populated (including a
present-but-empty sequence, which yields the empty joined string), and
omits the header entirely when `roles` is wholly absent. -/
theorem headers_roles_projection (t : Token) (th : List (String × String))
    (h : t.Headers = some th) :
    th.lookup "X-Roles"
      = t.roles.map fun rs => String.intercalate "," (rs.map Role.name) := by
  unfold Token.Headers at h
  rcases hp : t.project with _ | p
  · simp only [projectHeaders, hp, Option.map_some', Option.some.injEq] at h
    subst h
    rcases hd : t.domain with _ | d <;> rcases hr : t.roles with _ | rs <;>
      simp [domainHeaders, rolesHeaders, hd, hr, List.lookup, List.cons_append,
        List.nil_append]
  · rcases hpd : p.domain with _ | d
    · simp only [projectHeaders, hp, hpd, Option.map_none'] at h
      exact Option.noConfusion h
    · simp only [projectHeaders, hp, hpd, Option.map_some', Option.some.injEq] at h
      subst h
      rcases hd : t.domain with _ | d2 <;> rcases hr : t.roles with _ | rs <;>
        simp [domainHeaders, rolesHeaders, hd, hr, List.lookup, List.cons_append,
          List.nil_append]

/-- Witness for C5 at a concrete domain-scoped record with two roles. -/
theorem headers_roles_projection_witness :
    (wTokenDomain.Headers.getD []).lookup "X-Roles"
      = some (String.intercalate "," ["member", "blafasel"]) :=
  headers_roles_projection wTokenDomain (wTokenDomain.Headers.getD []) rfl

/-- C2 counterexample: on a record whose project carries `domain_id = "A"`
but an embedded domain sub-object with id `"B"`, the projection emits
`X-Project-Domain-Id: A` — the project's own `domain_id` field — not the
embedded sub-object's id, refuting the claim that both project-domain
headers are sourced from the embedded sub-object. -/
theorem project_domain_id_counterexample :
    (wTokenMismatch.Headers.map fun th => th.lookup "X-Project-Domain-Id")
      = some (some "A") ∧
    (wTokenMismatch.project.bind Project.domain).map Domain.id = some "B" ∧
    ("A" : String) ≠ "B" := by
  refine ⟨rfl, rfl, by decide⟩

/-- C2 (amended): when the project scope is populated,
`X-Project-Domain-Name` is sourced from the project's embedded domain
sub-object, while `X-Project-Domain-Id` is sourced from the project's own
`domain_id` field; neither comes from the top-level domain scope. -/
theorem headers_project_domain_sources (t : Token) (p : Project) (d : Domain)
    (hp : t.project = some p) (hd : p.domain = some d) :
    (t.Headers.map fun th => th.lookup "X-Project-Domain-Name")
      = some (some d.name) ∧
    (t.Headers.map fun th => th.lookup "X-Project-Domain-Id")
      = some (some p.domainID) := by
  have hph : projectHeaders t
      = some [("X-Project-Name", p.name), ("X-Project-Id", p.id),
              ("X-Project-Domain-Name", d.name), ("X-Project-Domain-Id", p.domainID)] := by
    simp [projectHeaders, hp, hd]
  unfold Token.Headers
  rw [hph]
  constructor <;> simp [List.lookup, List.cons_append, List.nil_append]

/-- Witness for the amended C2 at the mismatching concrete record. -/
theorem headers_project_domain_sources_witness :
    (wTokenMismatch.Headers.map fun th => th.lookup "X-Project-Domain-Name")
      = some (some "testdomain") ∧
    (wTokenMismatch.Headers.map fun th => th.lookup "X-Project-Domain-Id")
      = some (some "A") :=
  headers_project_domain_sources wTokenMismatch
    ⟨"p-1", "A", "Arc", true, some ⟨"B", "testdomain", true⟩⟩
    ⟨"B", "testdomain", true⟩ rfl rfl

/-- C3 counterexample: a 203 response with a decodable, error-free
envelope holding a currently-valid token fails validation (the source's
`StatusCode != http.StatusOK` branch), although it is outside the spec's
enumerated failure cases. -/
theorem validate_failure_counterexample :
    isFailure (validate (.response 203 (.envelope ⟨none, some wTokenUnscoped⟩)) 50)
      = true ∧
    specEnumeratedFailure (.response 203 (.envelope ⟨none, some wTokenUnscoped⟩)) 50
      = false := by
  constructor <;> rfl

/-- C3 (amended): `validate` fails exactly in the spec's enumerated cases
plus one more — an error-free decodable envelope arriving with a status
other than 200 (and below 400); in every other case it succeeds, yielding
the envelope's identity record. -/
theorem validate_failure_characterization (r : HttpResult) (now : Int) :
    (isFailure (validate r now)
      = (specEnumeratedFailure r now ||
         match r with
         | .response status (.envelope resp) => resp.error.isNone && decide (status ≠ 200)
         | _ => false)) ∧
    (∀ status resp t, r = .response status (.envelope resp) → resp.token = some t →
      isFailure (validate r now) = false → validate r now = .ok t) := by
  constructor
  · rcases r with _ | ⟨status, body⟩
    · rfl
    · rcases body with _ | resp
      · by_cases h4 : status ≥ 400 <;>
          simp [validate, isFailure, specEnumeratedFailure, h4]
      · rcases hre : resp.error with _ | e
        · rcases hrt : resp.token with _ | t
          · by_cases h4 : status ≥ 400 <;> by_cases h2 : status = 200 <;>
              simp [validate, isFailure, specEnumeratedFailure, h4, h2, hre, hrt]
          · by_cases h4 : status ≥ 400 <;> by_cases h2 : status = 200 <;>
              by_cases hv : t.Valid now = true <;>
              simp [validate, isFailure, specEnumeratedFailure, h4, h2, hre, hrt, hv]
        · by_cases h4 : status ≥ 400 <;>
            simp [validate, isFailure, specEnumeratedFailure, h4, hre]
  · rintro status resp t rfl ht hok
    by_cases h4 : status ≥ 400
    · simp [validate, isFailure, h4] at hok
    · rcases hre : resp.error with _ | e
      · by_cases h2 : status = 200
        · subst h2
          by_cases hv : t.Valid now = true <;>
            simp [validate, isFailure, hre, ht, hv] at hok ⊢
        · simp [validate, isFailure, h4, h2, hre] at hok
      · simp [validate, isFailure, h4, hre] at hok

/-- Witness for the amended C3: its success clause at a concrete 200
response. -/
theorem validate_failure_characterization_witness :
    validate (.response 200 (.envelope ⟨none, some wTokenUnscoped⟩)) 50
      = .ok wTokenUnscoped :=
  (validate_failure_characterization
      (.response 200 (.envelope ⟨none, some wTokenUnscoped⟩)) 50).2
    200 ⟨none, some wTokenUnscoped⟩ wTokenUnscoped rfl rfl rfl

/-- C4: whenever `ServeHTTP` writes a validated record to a configured
cache, the TTL passed to `Set` is `min(configured cache duration,
expiresAt − now)`; in particular it never exceeds the token's remaining
validity at the time of the write. -/
theorem serveHTTP_cacheWrite_ttl (cfg : GateConfig) (reqHeaders : HeaderMap)
    (cacheGet : String → Option Token) (net : String → HttpResult) (now : Int)
    (res : ServeOutcome) (k : String) (tok : Token) (ttl : Int)
    (hres : serveHTTP cfg reqHeaders cacheGet net now = some res)
    (hw : res.cacheWrite = some (k, tok, ttl)) :
    ttl = min cfg.cacheTime (tok.expiresAt - now) ∧ ttl ≤ tok.expiresAt - now := by
  simp only [serveHTTP] at hres
  split at hres
  · simp only [Option.some.injEq] at hres
    subst hres
    simp at hw
  · split at hres
    · rcases hth : (Token.Headers _) with _ | th <;> rw [hth] at hres
      · exact Option.noConfusion hres
      · simp only [Option.map_some', Option.some.injEq] at hres
        subst hres
        simp at hw
    · split at hres
      · simp only [Option.some.injEq] at hres
        subst hres
        simp at hw
      · rcases hth : (Token.Headers _) with _ | th <;> rw [hth] at hres
        · exact Option.noConfusion hres
        · simp only [Option.map_some', Option.some.injEq] at hres
          subst hres
          simp only at hw
          split at hw
          · simp only [Option.some.injEq, Prod.mk.injEq] at hw
            obtain ⟨-, htok, httl⟩ := hw
            subst htok
            subst httl
            constructor
            · simp only [computeTTL, min_def]
              split <;> split <;> omega
            · simp only [computeTTL]
              split <;> omega
          · exact Option.noConfusion hw

/-- Witness for C4: a concrete validated request writes TTL 50 =
min(300, 100 − 50). -/
theorem serveHTTP_cacheWrite_ttl_witness :
    (50 : Int) = min 300 (wTokenUnscoped.expiresAt - 50) ∧
    (50 : Int) ≤ wTokenUnscoped.expiresAt - 50 :=
  serveHTTP_cacheWrite_ttl ⟨true, 300⟩ [("X-Auth-Token", "1234")] (fun _ => none)
    wNet 50 wOutcome "1234" wTokenUnscoped 50 rfl rfl

/-- C7: on a validation failure the Gate leaves `X-Identity-Status` as
`Invalid`, sets no identity headers (the final header set is exactly the
sanitized one), suppresses the error, and still delegates downstream. -/
theorem serveHTTP_validation_failure_delegates (cfg : GateConfig)
    (reqHeaders : HeaderMap) (cacheGet : String → Option Token)
    (net : String → HttpResult) (now : Int) (tk : String) (e : ValidateError)
    (htk : hGet (sanitizedBase reqHeaders) "X-Auth-Token" = tk)
    (hne : tk ≠ "")
    (hmiss : cfg.cacheConfigured = true → cacheGet tk = none)
    (hval : validate (net tk) now = .error e) :
    serveHTTP cfg reqHeaders cacheGet net now
      = some ⟨sanitizedBase reqHeaders, true, true, none⟩ ∧
    hGet (sanitizedBase reqHeaders) "X-Identity-Status" = "Invalid" ∧
    ∀ n ∈ projectionHeaderNames, hGet (sanitizedBase reqHeaders) n = "" := by
  refine ⟨?_, ?_, ?_⟩
  · simp only [serveHTTP, htk]
    rw [if_neg hne]
    have hcg : (if cfg.cacheConfigured then cacheGet tk else none) = none := by
      cases hc : cfg.cacheConfigured
      · simp
      · simp [hmiss hc]
    rw [hcg, hval]
  · exact hGet_hSet_self _ _ _
  · intro n hn
    have hmem : n ∈ filteredHeaderNames ∧ n ≠ "X-Identity-Status" := by
      fin_cases hn <;> exact ⟨by decide, by decide⟩
    unfold sanitizedBase
    rw [hGet_hSet_ne _ _ _ _ hmem.2]
    unfold filterIncomingHeaders
    exact hGet_foldl_hDel_of_mem _ _ _ hmem.1

/-- Witness for C7 at a concrete transport-failing request. -/
theorem serveHTTP_validation_failure_delegates_witness :
    serveHTTP ⟨false, 300⟩ [("X-Auth-Token", "bad")] (fun _ => none)
      (fun _ => .transportFailure) 0
      = some ⟨sanitizedBase [("X-Auth-Token", "bad")], true, true, none⟩ :=
  (serveHTTP_validation_failure_delegates ⟨false, 300⟩ [("X-Auth-Token", "bad")]
    (fun _ => none) (fun _ => .transportFailure) 0 "bad" .transportFailure
    rfl (by decide) (fun _ => rfl) rfl).1

/-- C8: with a cache configured, after a successful validation on a first
request, a second request with the same token whose cache `Get` returns
the stored record never invokes the validator and yields the identical
confirmed header set. -/
theorem serveHTTP_cache_roundtrip (cfg : GateConfig) (reqHeaders : HeaderMap)
    (cacheGetMiss cacheGetHit : String → Option Token)
    (net netSecond : String → HttpResult) (now nowSecond : Int)
    (tk : String) (tok : Token) (th : List (String × String))
    (hcfg : cfg.cacheConfigured = true)
    (htk : hGet (sanitizedBase reqHeaders) "X-Auth-Token" = tk)
    (hne : tk ≠ "")
    (hmiss : cacheGetMiss tk = none)
    (hval : validate (net tk) now = .ok tok)
    (hth : tok.Headers = some th)
    (hhit : cacheGetHit tk = some tok) :
    serveHTTP cfg reqHeaders cacheGetMiss net now
      = some ⟨projectOnto (sanitizedBase reqHeaders) th, true, true,
              some (tk, tok, computeTTL cfg.cacheTime tok.expiresAt now)⟩ ∧
    serveHTTP cfg reqHeaders cacheGetHit netSecond nowSecond
      = some ⟨projectOnto (sanitizedBase reqHeaders) th, true, false, none⟩ := by
  constructor
  · simp only [serveHTTP, htk]
    rw [if_neg hne, hcfg]
    simp only [if_true]
    rw [hmiss]
    dsimp only
    rw [hval]
    dsimp only
    rw [hth]
    simp [hcfg]
  · simp only [serveHTTP, htk]
    rw [if_neg hne, hcfg]
    simp only [if_true]
    rw [hhit]
    dsimp only
    rw [hth]
    simp

/-- Witness for C8: concrete first and second requests with the same
token. -/
theorem serveHTTP_cache_roundtrip_witness :
    serveHTTP ⟨true, 300⟩ [("X-Auth-Token", "1234")]
      (fun _ => some wTokenUnscoped) wNet 50
      = some ⟨projectOnto (sanitizedBase [("X-Auth-Token", "1234")])
               (wTokenUnscoped.Headers.getD []), true, false, none⟩ :=
  (serveHTTP_cache_roundtrip ⟨true, 300⟩ [("X-Auth-Token", "1234")]
    (fun _ => none) (fun _ => some wTokenUnscoped) wNet wNet 50 50 "1234"
    wTokenUnscoped (wTokenUnscoped.Headers.getD []) rfl rfl (by decide)
    rfl rfl rfl rfl).2

/-- C10: on a configured-cache hit the Gate marks the request `Confirmed`
and projects the cached record without re-checking its validity window —
here even though the record is already expired (`Valid now = false`) —
and never calls the validator; freshness relies wholly on the cache
honoring the TTL given at `Set` time. -/
theorem serveHTTP_cacheHit_skips_validation (cfg : GateConfig)
    (reqHeaders : HeaderMap) (cacheGet : String → Option Token)
    (net : String → HttpResult) (now : Int) (tk : String) (tok : Token)
    (th : List (String × String))
    (hcfg : cfg.cacheConfigured = true)
    (htk : hGet (sanitizedBase reqHeaders) "X-Auth-Token" = tk)
    (hne : tk ≠ "")
    (hhit : cacheGet tk = some tok)
    (_hexpired : tok.Valid now = false)
    (hth : tok.Headers = some th) :
    serveHTTP cfg reqHeaders cacheGet net now
      = some ⟨projectOnto (sanitizedBase reqHeaders) th, true, false, none⟩ ∧
    hGet (projectOnto (sanitizedBase reqHeaders) th) "X-Identity-Status"
      = "Confirmed" := by
  constructor
  · simp only [serveHTTP, htk]
    rw [if_neg hne, hcfg]
    simp only [if_true]
    rw [hhit]
    dsimp only
    rw [hth]
    simp
  · exact hGet_projectOnto_status _ tok th hth

/-- Witness for C10: a cache hit on a record expired at now = 500 is still
projected as Confirmed. -/
theorem serveHTTP_cacheHit_skips_validation_witness :
    serveHTTP ⟨true, 300⟩ [("X-Auth-Token", "1234")]
      (fun _ => some wTokenUnscoped) (fun _ => .transportFailure) 500
      = some ⟨projectOnto (sanitizedBase [("X-Auth-Token", "1234")])
               (wTokenUnscoped.Headers.getD []), true, false, none⟩ :=
  (serveHTTP_cacheHit_skips_validation ⟨true, 300⟩ [("X-Auth-Token", "1234")]
    (fun _ => some wTokenUnscoped) (fun _ => .transportFailure) 500 "1234"
    wTokenUnscoped (wTokenUnscoped.Headers.getD []) rfl rfl (by decide)
    rfl rfl rfl).1

end Keystone
